import Mathlib

/-!
Verification of the commit-and-correlate orchestration pipeline of the
GitHub Actions test-runner backend.  The definitions below are a shallow
embedding of `src/services/githubService.js` and
`src/controllers/testRunController.js`: remote network responses are
passed in explicitly as environment values, the in-memory `Map` registry
is an association list, and thrown JavaScript errors are `Except.error`
carrying the message string built by `handleError`.
-/

namespace QA

/-- JavaScript values, as far as the controller's input validation
(`!testScript || typeof testScript !== 'string'`) can distinguish them. -/
inductive JsVal where
  | undef
  | jsNull
  | jsStr (s : String)
  | jsNum (n : Int)
  | jsBool (b : Bool)
deriving DecidableEq, Repr

/-- JavaScript truthiness of a value. -/
def JsVal.truthy : JsVal → Bool
  | .undef => false
  | .jsNull => false
  | .jsStr s => !(s == "")
  | .jsNum n => !(n == 0)
  | .jsBool b => b

/-- `typeof v === 'string'`. -/
def JsVal.isStringVal : JsVal → Bool
  | .jsStr _ => true
  | _ => false

/-- Association-list lookup (first match), the read of a JS `Map`. -/
def alookup {α β : Type} [BEq α] (l : List (α × β)) (k : α) : Option β :=
  (l.find? (fun p => p.1 == k)).map (fun p => p.2)

/-- Association-list write with JS `Map.set` semantics: replace in place
when the key is present, append otherwise. -/
def aset {α β : Type} [BEq α] (l : List (α × β)) (k : α) (v : β) : List (α × β) :=
  if l.any (fun p => p.1 == k) then
    l.map (fun p => if p.1 == k then (k, v) else p)
  else l ++ [(k, v)]

/-- Association-list delete, the `Map.delete` of the registry. -/
def adel {α β : Type} [BEq α] (l : List (α × β)) (k : α) : List (α × β) :=
  l.filter (fun p => !(p.1 == k))

/-! ## Git object model (`GitHubService.commitFiles`) -/

/-- A file submitted to `commitFiles`: `{path, content}`. -/
structure FileEntry where
  path : String
  content : String
deriving DecidableEq, Repr

/-- One entry of a Git tree, as built in step 3 of `commitFiles`
(`{path, mode: '100644', type: 'blob', sha}`). -/
structure TreeEntry where
  path : String
  mode : String
  type : String
  sha : Nat
deriving DecidableEq, Repr

/-- A Git commit object: message, root tree sha, parent shas. -/
structure CommitObj where
  message : String
  tree : Nat
  parents : List Nat
deriving DecidableEq, Repr

/-- The remote repository's object store and refs.  Object ids are drawn
from a single counter `nextSha`, so freshly created objects never collide
with existing ones. -/
structure RemoteRepo where
  refs : List (String × Nat)
  commits : List (Nat × CommitObj)
  trees : List (Nat × List TreeEntry)
  blobs : List (Nat × String)
  nextSha : Nat
deriving DecidableEq, Repr

/-- The create-blob endpoint: store the content under a fresh object id. -/
def addBlob (st : RemoteRepo) (c : String) : RemoteRepo :=
  { st with blobs := st.blobs ++ [(st.nextSha, c)], nextSha := st.nextSha + 1 }

/-- Step 3 of `commitFiles`: create one blob per file and record the tree
entry `{path, mode: '100644', type: 'blob', sha}` for each, in input
order. -/
def createBlobs : RemoteRepo → List FileEntry → RemoteRepo × List TreeEntry
  | st, [] => (st, [])
  | st, f :: fs =>
    let r := createBlobs (addBlob st f.content) fs
    (r.1, ⟨f.path, "100644", "blob", st.nextSha⟩ :: r.2)

/-- Overlay a single entry on a tree: replace the entry at the same path
when present, append otherwise (the `base_tree` update semantics of the
create-tree endpoint). -/
def overlayEntry (es : List TreeEntry) (e : TreeEntry) : List TreeEntry :=
  if es.any (fun x => x.path == e.path) then
    es.map (fun x => if x.path == e.path then e else x)
  else es ++ [e]

/-- Overlay a list of new entries on a base tree; paths not mentioned by
the new entries are inherited from the base. -/
def overlay (base : List TreeEntry) (news : List TreeEntry) : List TreeEntry :=
  news.foldl overlayEntry base

/-- Fuel-bounded ancestry test: is `a` equal to `target` or an ancestor
of it, following parent links? -/
def isAncestorOrEq (st : RemoteRepo) : Nat → Nat → Nat → Bool
  | 0, _, _ => false
  | fuel + 1, a, target =>
    a == target ||
      (match alookup st.commits target with
       | none => false
       | some c => c.parents.any (fun p => isAncestorOrEq st fuel a p))

/-- The update-ref endpoint.  With `force = false` (the value the code
always passes) the update succeeds only if it is a fast-forward: the
current head must lie in the ancestry of the new commit. -/
def updateRef (st : RemoteRepo) (branch : String) (newSha : Nat) (force : Bool) :
    Except String RemoteRepo :=
  match alookup st.refs branch with
  | none => .error "Reference does not exist"
  | some cur =>
    if force || isAncestorOrEq st (st.nextSha + 1) cur newSha then
      .ok { st with refs := aset st.refs branch newSha }
    else .error "Update is not a fast forward"

/-- `handleError(error, 'Failed to commit files')` message wrapping. -/
def wrapCommitErr (e : String) : String := "Failed to commit files: " ++ e

/-- Step 6 of `commitFiles`: the non-forced ref update, with the thrown
error wrapped by `handleError`. -/
def commitStep6 (st4 : RemoteRepo) (branch : String) (commitSha : Nat) :
    Except String Nat × RemoteRepo :=
  match updateRef st4 branch commitSha false with
  | .error e => (.error (wrapCommitErr e), st4)
  | .ok st5 => (.ok commitSha, st5)

/-- Steps 4-6 of `commitFiles`: build the new tree over the base tree,
create the single new commit with the step-1 head as sole parent, then
(after any concurrent interference) update the ref. -/
def commitSteps45 (st1 : RemoteRepo) (interfere : RemoteRepo → RemoteRepo)
    (blobEntries : List TreeEntry) (message branch : String)
    (latestCommitSha : Nat) (baseEntries : List TreeEntry) :
    Except String Nat × RemoteRepo :=
  let newTreeEntries := overlay baseEntries blobEntries
  let treeSha := st1.nextSha
  let st2 : RemoteRepo :=
    { st1 with trees := st1.trees ++ [(treeSha, newTreeEntries)],
               nextSha := treeSha + 1 }
  let commitSha := st2.nextSha
  let newCommit : CommitObj := ⟨message, treeSha, [latestCommitSha]⟩
  let st3 : RemoteRepo :=
    { st2 with commits := st2.commits ++ [(commitSha, newCommit)],
               nextSha := commitSha + 1 }
  commitStep6 (interfere st3) branch commitSha

/-- `GitHubService.commitFiles(owner, repo, files, message, branch)`.
`interfere` models what a concurrent writer does to the remote between
the head resolution of step 1 and the ref update of step 6 (`id` when the
execution is uninterfered).  The remote state is returned alongside the
result because a thrown error does not roll the remote back. -/
def commitFiles (st0 : RemoteRepo) (interfere : RemoteRepo → RemoteRepo)
    (files : List FileEntry) (message : String) (branch : String) :
    Except String Nat × RemoteRepo :=
  match alookup st0.refs branch with
  | none => (.error (wrapCommitErr "Not Found"), st0)
  | some latestCommitSha =>
    match alookup st0.commits latestCommitSha with
    | none => (.error (wrapCommitErr "Not Found"), st0)
    | some headCommit =>
      let r3 := createBlobs st0 files
      match alookup r3.1.trees headCommit.tree with
      | none => (.error (wrapCommitErr "Not Found"), r3.1)
      | some baseEntries =>
        commitSteps45 r3.1 interfere r3.2 message branch latestCommitSha baseEntries

/-- A concurrent writer that advances `branch` by one new commit on top
of the current head (the "another writer advanced the branch" scenario of
the fast-forward property). -/
def pushNewCommit (wmsg : String) (branch : String) (st : RemoteRepo) : RemoteRepo :=
  match alookup st.refs branch with
  | none => st
  | some h =>
    let t := ((alookup st.commits h).map (fun c => c.tree)).getD 0
    { st with commits := st.commits ++ [(st.nextSha, ⟨wmsg, t, [h]⟩)],
              refs := aset st.refs branch st.nextSha,
              nextSha := st.nextSha + 1 }

/-- Well-formed remote state: every stored object id and ref target is
below the allocation counter, and parents strictly precede their
commit. -/
def wfRepo (st : RemoteRepo) : Prop :=
  (∀ p ∈ st.refs, p.2 < st.nextSha) ∧
  (∀ p ∈ st.blobs, p.1 < st.nextSha) ∧
  (∀ p ∈ st.trees, p.1 < st.nextSha) ∧
  (∀ p ∈ st.commits, p.1 < st.nextSha ∧ ∀ q ∈ p.2.parents, q < p.1)

instance (st : RemoteRepo) : Decidable (wfRepo st) := by
  unfold wfRepo; infer_instance

/-! ## Controller model (`TestRunController`) -/

/-- A workflow run as the remote platform stores it (including the head
commit sha, which the service's list projection drops). -/
structure PlatformRun where
  id : Nat
  name : String
  status : String
  conclusion : Option String
  headSha : Nat
  createdAt : Nat
  updatedAt : Nat
  htmlUrl : String
  runNumber : Nat
deriving DecidableEq, Repr

/-- The projection `GitHubService.getWorkflowRuns` applies to each run:
id, name, status, conclusion, createdAt, updatedAt, htmlUrl, runNumber —
note there is no head-sha field. -/
structure RunListItem where
  id : Nat
  name : String
  status : String
  conclusion : Option String
  createdAt : Nat
  updatedAt : Nat
  htmlUrl : String
  runNumber : Nat
deriving DecidableEq, Repr

def projectRunListItem (r : PlatformRun) : RunListItem :=
  ⟨r.id, r.name, r.status, r.conclusion, r.createdAt, r.updatedAt, r.htmlUrl, r.runNumber⟩

/-- `GitHubService.getWorkflowRuns(owner, repo, limit)`: first `limit`
runs of the platform's newest-first list, projected. -/
def getWorkflowRuns (platformRuns : List PlatformRun) (limit : Nat) : List RunListItem :=
  (platformRuns.take limit).map projectRunListItem

/-- The projection `GitHubService.getWorkflowRunById` returns. -/
structure RunDetail where
  id : Nat
  name : String
  status : String
  conclusion : Option String
  createdAt : Nat
  updatedAt : Nat
  htmlUrl : String
  runNumber : Nat
  event : String
  headBranch : String
deriving DecidableEq, Repr

/-- The per-run metadata record the controller stores in `activeRuns`.
`conclusion` and `updatedAt` are absent until the first status refresh. -/
structure RunMetadata where
  runId : String
  owner : String
  repo : String
  repoFullName : String
  workflowRunId : Option Nat
  testName : String
  createdAt : Nat
  status : String
  conclusion : Option String
  updatedAt : Option Nat
deriving DecidableEq, Repr

/-- The `activeRuns` map. -/
abbrev Registry := List (String × RunMetadata)

/-- Payload of a successful creation response. -/
structure CreatedData where
  runId : String
  workflowRunId : Option Nat
  repository : String
  status : String
deriving DecidableEq, Repr

/-- Response bodies of the controller endpoints. -/
inductive RespBody where
  | err (msg : String)
  | created (d : CreatedData)
  | statusData (runId : String) (workflowRunId : Option Nat)
      (status : String) (conclusion : Option String)
  | logsData (runId : String) (workflowRunId : Option Nat)
      (logDownloadUrl : Option String)
  | deleted (msg : String)
deriving DecidableEq, Repr

/-- An HTTP response: status code plus body. -/
structure HttpResp where
  status : Nat
  body : RespBody
deriving DecidableEq, Repr

/-- Remote operations the controller performs, in order. -/
inductive Effect where
  | createRepo (name : String) (isPrivate : Bool)
  | commitFiles (owner repo : String) (paths : List String)
      (message : String) (branch : String)
  | triggerWorkflow (owner repo workflowFile : String) (ref : String)
  | listWorkflowRuns (owner repo : String) (limit : Nat)
  | getRunById (owner repo : String) (workflowRunId : Option Nat)
  | listJobs (owner repo : String) (workflowRunId : Option Nat)
  | deleteRepo (owner repo : String)
deriving DecidableEq, Repr

/-- Request body of `POST /api/create-test-run`. -/
structure CreateBody where
  testScript : JsVal
  testName : Option String
  repoName : Option String
deriving DecidableEq, Repr

/-- Responses of the four service calls `createTestRun` makes, i.e. what
the remote platform answers during this execution.  `runsRes` is the
platform's newest-first run list at the moment of the single
`getWorkflowRuns(owner, repo, 1)` call. -/
structure CreateEnv where
  createRepoRes : Except String String
  commitRes : Except String Nat
  triggerRes : Except String Unit
  runsRes : Except String (List PlatformRun)

/-- Character-level helper for `splitSlash`. -/
def splitSlashAux : List Char → List Char → List String
  | [], acc => [String.mk acc.reverse]
  | c :: cs, acc =>
    if c = '/' then String.mk acc.reverse :: splitSlashAux cs []
    else splitSlashAux cs (c :: acc)

/-- JavaScript `fullName.split('/')`, used to destructure the repository
full name into owner and repo. -/
def splitSlash (s : String) : List String :=
  splitSlashAux s.data []

/-- `TestRunController.createTestRun`.  `now` is the `Date.now()`
millisecond timestamp observed at the start of the handler. -/
def createTestRun (reg : Registry) (body : CreateBody) (now : Nat) (env : CreateEnv) :
    HttpResp × Registry × List Effect :=
  if !(body.testScript.truthy && body.testScript.isStringVal) then
    (⟨400, .err "testScript is required and must be a string"⟩, reg, [])
  else
    let runId := "test-run-" ++ toString now
    let finalRepoName := body.repoName.getD ("selenium-test-" ++ toString now)
    match env.createRepoRes with
    | .error e => (⟨500, .err e⟩, reg, [.createRepo finalRepoName true])
    | .ok fullName =>
      let parts := splitSlash fullName
      let owner := parts.getD 0 ""
      let repo := parts.getD 1 ""
      let filePaths := ["test_script.py", ".github/workflows/selenium-test.yml"]
      let eff1 : List Effect := [.createRepo finalRepoName true,
        .commitFiles owner repo filePaths ("Add Selenium test script for run " ++ runId) "main"]
      match env.commitRes with
      | .error e => (⟨500, .err e⟩, reg, eff1)
      | .ok _ =>
        let eff2 := eff1 ++ [.triggerWorkflow owner repo "selenium-test.yml" "main"]
        match env.triggerRes with
        | .error e => (⟨500, .err e⟩, reg, eff2)
        | .ok _ =>
          let eff3 := eff2 ++ [.listWorkflowRuns owner repo 1]
          match env.runsRes with
          | .error e => (⟨500, .err e⟩, reg, eff3)
          | .ok platformRuns =>
            let latestRun := (getWorkflowRuns platformRuns 1).head?
            let meta : RunMetadata :=
              ⟨runId, owner, repo, fullName, latestRun.map (fun r => r.id),
               body.testName.getD "selenium-test", now, "queued", none, none⟩
            (⟨201, .created ⟨runId, latestRun.map (fun r => r.id), fullName, "queued"⟩⟩,
             aset reg runId meta, eff3)

/-- Remote answer to the single `getWorkflowRunById` call of a status
refresh. -/
structure StatusEnv where
  runByIdRes : Except String RunDetail

/-- `TestRunController.getStatus`. -/
def getStatus (reg : Registry) (runId : String) (env : StatusEnv) (now : Nat) :
    HttpResp × Registry × List Effect :=
  match alookup reg runId with
  | none => (⟨404, .err "Test run not found"⟩, reg, [])
  | some meta =>
    let eff : List Effect := [.getRunById meta.owner meta.repo meta.workflowRunId]
    match env.runByIdRes with
    | .error e => (⟨500, .err e⟩, reg, eff)
    | .ok run =>
      let meta' := { meta with status := run.status, conclusion := run.conclusion,
                               updatedAt := some now }
      (⟨200, .statusData runId meta.workflowRunId run.status run.conclusion⟩,
       aset reg runId meta', eff)

/-- Remote answer to the jobs/log-url fetch of `getWorkflowLogs`. -/
structure LogsEnv where
  logsRes : Except String (Option String)

/-- `TestRunController.getLogs` (job detail elided: only the download
url part of the payload is modelled). -/
def getLogs (reg : Registry) (runId : String) (env : LogsEnv) :
    HttpResp × Registry × List Effect :=
  match alookup reg runId with
  | none => (⟨404, .err "Test run not found"⟩, reg, [])
  | some meta =>
    let eff : List Effect := [.listJobs meta.owner meta.repo meta.workflowRunId]
    match env.logsRes with
    | .error e => (⟨500, .err e⟩, reg, eff)
    | .ok logUrl =>
      (⟨200, .logsData runId meta.workflowRunId logUrl⟩, reg, eff)

/-- `GitHubService.deleteRepo`: the remote delete call succeeds when the
repository exists and yields a 404 error — wrapped by `handleError` —
when it is already absent. -/
def deleteRepoSvc (repoExists : Bool) : Except String Unit :=
  if repoExists then .ok () else .error "Failed to delete repository: Not Found"

/-- `TestRunController.deleteRun`.  `repoExists` says whether the
backing repository still exists remotely. -/
def deleteRun (reg : Registry) (runId : String) (repoExists : Bool) :
    HttpResp × Registry × List Effect :=
  match alookup reg runId with
  | none => (⟨404, .err "Test run not found"⟩, reg, [])
  | some meta =>
    let eff : List Effect := [.deleteRepo meta.owner meta.repo]
    match deleteRepoSvc repoExists with
    | .error e => (⟨500, .err e⟩, reg, eff)
    | .ok _ =>
      (⟨200, .deleted "Test run and repository deleted successfully"⟩,
       adel reg runId, eff)

/-! ## Association-list lemmas -/

theorem alookup_cons {α β : Type} [BEq α] (p : α × β) (l : List (α × β)) (k : α) :
    alookup (p :: l) k = if p.1 == k then some p.2 else alookup l k := by
  simp only [alookup, List.find?_cons]
  cases h : p.1 == k <;> simp

theorem alookup_eq_none {α β : Type} [BEq α] (l : List (α × β)) (k : α)
    (h : ∀ p ∈ l, (p.1 == k) = false) : alookup l k = none := by
  induction l with
  | nil => rfl
  | cons p l ih =>
    rw [alookup_cons, if_neg (by simp [h p (by simp)])]
    exact ih (fun q hq => h q (by simp [hq]))

theorem alookup_append_right {α β : Type} [BEq α] (l1 l2 : List (α × β)) (k : α)
    (h : alookup l1 k = none) : alookup (l1 ++ l2) k = alookup l2 k := by
  induction l1 with
  | nil => simp
  | cons p l ih =>
    rw [alookup_cons] at h
    cases hp : p.1 == k
    · rw [hp, if_neg (by simp)] at h
      rw [List.cons_append, alookup_cons, if_neg (by simp [hp])]
      exact ih h
    · rw [hp] at h; simp at h

theorem alookup_map_replace {α β : Type} [BEq α] [LawfulBEq α] :
    ∀ (l : List (α × β)) (k : α) (v : β), l.any (fun q => q.1 == k) = true →
      alookup (l.map (fun q => if q.1 == k then (k, v) else q)) k = some v := by
  intro l k v h
  induction l with
  | nil => simp at h
  | cons p l ih =>
    cases hp : p.1 == k
    · simp only [List.any_cons, hp, Bool.false_or] at h
      simp only [List.map_cons, hp, Bool.false_eq_true, if_false]
      rw [alookup_cons, if_neg (by simp [hp])]
      exact ih h
    · simp [List.map_cons, hp, alookup_cons]

theorem alookup_append_single {α β : Type} [BEq α] [LawfulBEq α]
    (l : List (α × β)) (k : α) (v : β) (h : l.any (fun q => q.1 == k) = false) :
    alookup (l ++ [(k, v)]) k = some v := by
  rw [alookup_append_right l [(k, v)] k (alookup_eq_none l k (by
    intro p hp
    exact Bool.eq_false_iff.mpr ((List.any_eq_false.mp h) p hp)))]
  simp [alookup_cons]

theorem alookup_aset_self {α β : Type} [BEq α] [LawfulBEq α]
    (l : List (α × β)) (k : α) (v : β) : alookup (aset l k v) k = some v := by
  unfold aset
  cases h : l.any (fun p => p.1 == k)
  · simp only [Bool.false_eq_true, if_false]
    exact alookup_append_single l k v h
  · simp only [if_true]
    exact alookup_map_replace l k v h

theorem alookup_append_pair {β : Type} (l : List (Nat × β)) (k : Nat) (v : β)
    (h : ∀ p ∈ l, p.1 ≠ k) : alookup (l ++ [(k, v)]) k = some v := by
  rw [alookup_append_right l [(k, v)] k
    (alookup_eq_none l k (fun p hp => by simp [h p hp]))]
  simp [alookup_cons]

theorem alookup_mem {α β : Type} [BEq α] [LawfulBEq α] {l : List (α × β)} {k : α} {v : β}
    (h : alookup l k = some v) : (k, v) ∈ l := by
  unfold alookup at h
  obtain ⟨p, hf, hv⟩ := Option.map_eq_some'.mp h
  have hm := List.mem_of_find?_eq_some hf
  have hp := List.find?_some hf
  simp only [beq_iff_eq] at hp
  cases p with
  | mk a b =>
    simp only at hv hp
    subst hv; subst hp
    exact hm

/-! ## Claims about the controller -/

/-- C9: a createTestRun request whose testScript is missing (undefined) or not
a string is rejected with HTTP 400 before any remote operation is attempted:
no effect is issued and the run registry is unchanged. -/
theorem createTestRun_invalid_testScript (reg : Registry) (body : CreateBody)
    (now : Nat) (env : CreateEnv) (h : body.testScript.isStringVal = false) :
    (createTestRun reg body now env).1.status = 400 ∧
    (createTestRun reg body now env).2.1 = reg ∧
    (createTestRun reg body now env).2.2 = [] := by
  have hb : (body.testScript.truthy && body.testScript.isStringVal) = false := by
    rw [h]; exact Bool.and_false _
  simp [createTestRun, hb]

/-- Witness for C9: a request whose testScript is a number is rejected with
400, leaving the registry and the remote untouched. -/
theorem createTestRun_invalid_testScript_witness :
    (createTestRun [] ⟨JsVal.jsNum 5, none, none⟩ 0
        ⟨.ok "o/r", .ok 0, .ok (), .ok []⟩).1.status = 400 ∧
    (createTestRun [] ⟨JsVal.jsNum 5, none, none⟩ 0
        ⟨.ok "o/r", .ok 0, .ok (), .ok []⟩).2.1 = [] ∧
    (createTestRun [] ⟨JsVal.jsNum 5, none, none⟩ 0
        ⟨.ok "o/r", .ok 0, .ok (), .ok []⟩).2.2 = [] :=
  createTestRun_invalid_testScript [] ⟨JsVal.jsNum 5, none, none⟩ 0
    ⟨.ok "o/r", .ok 0, .ok (), .ok []⟩ (by decide)

/-- C7: every one of getStatus, getLogs and deleteRun on a runId that is not
registered answers HTTP 404 "Test run not found", leaves the registry
unchanged and performs no remote operation. -/
theorem unknown_runId_not_found (reg : Registry) (rid : String)
    (senv : StatusEnv) (lenv : LogsEnv) (now : Nat) (repoExists : Bool)
    (h : alookup reg rid = none) :
    getStatus reg rid senv now = (⟨404, .err "Test run not found"⟩, reg, []) ∧
    getLogs reg rid lenv = (⟨404, .err "Test run not found"⟩, reg, []) ∧
    deleteRun reg rid repoExists = (⟨404, .err "Test run not found"⟩, reg, []) := by
  refine ⟨?_, ?_, ?_⟩ <;> simp [getStatus, getLogs, deleteRun, h]

/-- Witness for C7: on the empty registry, all three endpoints answer 404 for
the runId "missing". -/
theorem unknown_runId_not_found_witness :
    getStatus [] "missing" ⟨.error "e"⟩ 0 = (⟨404, .err "Test run not found"⟩, [], []) ∧
    getLogs [] "missing" ⟨.ok none⟩ = (⟨404, .err "Test run not found"⟩, [], []) ∧
    deleteRun [] "missing" true = (⟨404, .err "Test run not found"⟩, [], []) :=
  unknown_runId_not_found [] "missing" ⟨.error "e"⟩ ⟨.ok none⟩ 0 true (by decide)

theorem getWorkflowRuns_one_head (runs : List PlatformRun) :
    ((getWorkflowRuns runs 1).head?).map (fun r => r.id) =
      runs.head?.map (fun r => r.id) := by
  cases runs <;> simp [getWorkflowRuns, projectRunListItem]

/-- C1 (amended): after a successful dispatch, the correlation step assigns to
the run the id of the first element of the repository's newest-first run list,
fetched once with per_page = 1 after fixed delays; no headSha and no createdAt
check is involved, so the assigned run need not belong to this call's commit. -/
theorem createTestRun_assigns_latest_run (reg : Registry) (body : CreateBody)
    (now : Nat) (env : CreateEnv) (fullName : String) (sha : Nat)
    (runs : List PlatformRun)
    (hv : (body.testScript.truthy && body.testScript.isStringVal) = true)
    (hrepo : env.createRepoRes = .ok fullName)
    (hcommit : env.commitRes = .ok sha)
    (htrig : env.triggerRes = .ok ())
    (hruns : env.runsRes = .ok runs) :
    (createTestRun reg body now env).1.status = 201 ∧
    (alookup (createTestRun reg body now env).2.1
        ("test-run-" ++ toString now)).map (fun m => m.workflowRunId) =
      some (runs.head?.map (fun r => r.id)) ∧
    (alookup (createTestRun reg body now env).2.1
        ("test-run-" ++ toString now)).map (fun m => m.status) = some "queued" := by
  simp only [createTestRun, hv, Bool.not_true, Bool.false_eq_true, if_false,
    hrepo, hcommit, htrig, hruns]
  refine ⟨trivial, ?_, ?_⟩
  · rw [alookup_aset_self]
    exact congrArg some (getWorkflowRuns_one_head runs)
  · rw [alookup_aset_self]
    rfl

/-- C1 counterexample: this call's CommitPipeline produces commit sha 50 with
dispatch at time 1000, yet the remote run list holds a single run 777 whose
headSha is 60 and which was created at time 0 (before the dispatch);
createTestRun nevertheless assigns workflowRunId 777 — a run belonging to a
different commit. -/
theorem createTestRun_correlation_cex :
    (alookup (createTestRun [] ⟨JsVal.jsStr "print(1)", none, none⟩ 1000
        ⟨.ok "SarthakRay26/repoA", .ok 50, .ok (),
         .ok [⟨777, "w", "queued", none, 60, 0, 0, "u", 1⟩]⟩).2.1
      "test-run-1000").map (fun m => m.workflowRunId) = some (some 777) ∧
    (60 : Nat) ≠ 50 ∧ (0 : Nat) < 1000 := by
  refine ⟨by decide, by decide, by decide⟩

/-- Witness for C1's amended theorem at a concrete environment whose run list
head has id 5. -/
theorem createTestRun_assigns_latest_run_witness :
    (createTestRun [] ⟨JsVal.jsStr "x", none, none⟩ 3
        ⟨.ok "a/b", .ok 9, .ok (),
         .ok [⟨5, "n", "queued", none, 9, 10, 10, "u", 1⟩]⟩).1.status = 201 ∧
    (alookup (createTestRun [] ⟨JsVal.jsStr "x", none, none⟩ 3
        ⟨.ok "a/b", .ok 9, .ok (),
         .ok [⟨5, "n", "queued", none, 9, 10, 10, "u", 1⟩]⟩).2.1
      ("test-run-" ++ toString 3)).map (fun m => m.workflowRunId) =
      some (([⟨5, "n", "queued", none, 9, 10, 10, "u", 1⟩] :
        List PlatformRun).head?.map (fun r => r.id)) ∧
    (alookup (createTestRun [] ⟨JsVal.jsStr "x", none, none⟩ 3
        ⟨.ok "a/b", .ok 9, .ok (),
         .ok [⟨5, "n", "queued", none, 9, 10, 10, "u", 1⟩]⟩).2.1
      ("test-run-" ++ toString 3)).map (fun m => m.status) = some "queued" :=
  createTestRun_assigns_latest_run [] ⟨JsVal.jsStr "x", none, none⟩ 3
    ⟨.ok "a/b", .ok 9, .ok (), .ok [⟨5, "n", "queued", none, 9, 10, 10, "u", 1⟩]⟩
    "a/b" 9 [⟨5, "n", "queued", none, 9, 10, 10, "u", 1⟩]
    (by decide) rfl rfl rfl rfl

/-- C2 (amended): a status refresh unconditionally overwrites the stored
status and conclusion with whatever the remote reports for the recorded
workflowRunId — there is no monotonicity guard, so the stored status and
conclusion revert whenever the remote report does. -/
theorem getStatus_overwrites_status (reg : Registry) (rid : String)
    (meta : RunMetadata) (run : RunDetail) (env : StatusEnv) (now : Nat)
    (hm : alookup reg rid = some meta) (he : env.runByIdRes = .ok run) :
    (getStatus reg rid env now).1 =
      ⟨200, .statusData rid meta.workflowRunId run.status run.conclusion⟩ ∧
    alookup (getStatus reg rid env now).2.1 rid =
      some { meta with status := run.status, conclusion := run.conclusion,
                       updatedAt := some now } := by
  simp [getStatus, hm, he, alookup_aset_self]

/-- Witness for C2's amended theorem: a refresh of a queued run in which the
remote reports completed/success stores exactly that report. -/
theorem getStatus_overwrites_status_witness :
    (getStatus [("test-run-2", ⟨"test-run-2", "o", "r", "o/r", some 7, "t", 0,
        "queued", none, none⟩)] "test-run-2"
      ⟨.ok ⟨7, "w", "completed", some "success", 0, 0, "u", 1, "workflow_dispatch",
        "main"⟩⟩ 9).1 =
      ⟨200, .statusData "test-run-2" (some 7) "completed" (some "success")⟩ ∧
    alookup (getStatus [("test-run-2", ⟨"test-run-2", "o", "r", "o/r", some 7, "t", 0,
        "queued", none, none⟩)] "test-run-2"
      ⟨.ok ⟨7, "w", "completed", some "success", 0, 0, "u", 1, "workflow_dispatch",
        "main"⟩⟩ 9).2.1 "test-run-2" =
      some { (⟨"test-run-2", "o", "r", "o/r", some 7, "t", 0, "queued", none, none⟩ :
          RunMetadata) with
        status := "completed", conclusion := some "success", updatedAt := some 9 } :=
  getStatus_overwrites_status
    [("test-run-2", ⟨"test-run-2", "o", "r", "o/r", some 7, "t", 0, "queued", none, none⟩)]
    "test-run-2" ⟨"test-run-2", "o", "r", "o/r", some 7, "t", 0, "queued", none, none⟩
    ⟨7, "w", "completed", some "success", 0, 0, "u", 1, "workflow_dispatch", "main"⟩
    ⟨.ok ⟨7, "w", "completed", some "success", 0, 0, "u", 1, "workflow_dispatch", "main"⟩⟩
    9 (by decide) rfl

/-- C2 counterexample: a run whose stored status has reached completed (with
conclusion success) is reverted to queued, and its conclusion cleared, by a
subsequent refresh in which the remote reports queued with no conclusion. -/
theorem getStatus_status_revert_cex :
    alookup (getStatus
        [("test-run-1", ⟨"test-run-1", "o", "r", "o/r", some 7, "t", 0,
          "completed", some "success", some 1⟩)]
        "test-run-1"
        ⟨.ok ⟨7, "w", "queued", none, 0, 0, "u", 1, "workflow_dispatch", "main"⟩⟩
        2).2.1 "test-run-1" =
      some ⟨"test-run-1", "o", "r", "o/r", some 7, "t", 0, "queued", none, some 2⟩ := by
  decide

/-- C5 (amended): the repository-deletion step is not idempotent: when the
backing repository is already absent the remote delete fails and deleteRun
surfaces the error as HTTP 500, retaining the registry entry; only a
successful remote deletion yields 200 and removes the entry. -/
theorem deleteRun_absent_repo_errors (reg : Registry) (rid : String)
    (meta : RunMetadata) (hm : alookup reg rid = some meta) :
    deleteRun reg rid false =
      (⟨500, .err "Failed to delete repository: Not Found"⟩, reg,
        [.deleteRepo meta.owner meta.repo]) ∧
    deleteRun reg rid true =
      (⟨200, .deleted "Test run and repository deleted successfully"⟩,
        adel reg rid, [.deleteRepo meta.owner meta.repo]) := by
  constructor <;> simp [deleteRun, deleteRepoSvc, hm]

/-- Witness for C5's amended theorem at a concrete one-entry registry. -/
theorem deleteRun_absent_repo_errors_witness :
    deleteRun [("test-run-9", ⟨"test-run-9", "o", "r", "o/r", some 7, "t", 0,
        "queued", none, none⟩)] "test-run-9" false =
      (⟨500, .err "Failed to delete repository: Not Found"⟩,
        [("test-run-9", ⟨"test-run-9", "o", "r", "o/r", some 7, "t", 0,
          "queued", none, none⟩)], [.deleteRepo "o" "r"]) ∧
    deleteRun [("test-run-9", ⟨"test-run-9", "o", "r", "o/r", some 7, "t", 0,
        "queued", none, none⟩)] "test-run-9" true =
      (⟨200, .deleted "Test run and repository deleted successfully"⟩,
        adel [("test-run-9", ⟨"test-run-9", "o", "r", "o/r", some 7, "t", 0,
          "queued", none, none⟩)] "test-run-9", [.deleteRepo "o" "r"]) :=
  deleteRun_absent_repo_errors
    [("test-run-9", ⟨"test-run-9", "o", "r", "o/r", some 7, "t", 0, "queued", none, none⟩)]
    "test-run-9" ⟨"test-run-9", "o", "r", "o/r", some 7, "t", 0, "queued", none, none⟩
    (by decide)

/-- C5 counterexample: retrying the repository-deletion step for a run whose
repository was already removed raises an error instead of succeeding: the
call answers HTTP 500 and the registry entry survives. -/
theorem deleteRun_absent_repo_error_cex :
    (deleteRun [("test-run-8", ⟨"test-run-8", "o", "r", "o/r", some 3, "t", 0,
        "completed", some "success", some 1⟩)] "test-run-8" false).1.status = 500 ∧
    (deleteRun [("test-run-8", ⟨"test-run-8", "o", "r", "o/r", some 3, "t", 0,
        "completed", some "success", some 1⟩)] "test-run-8" false).2.1 =
      [("test-run-8", ⟨"test-run-8", "o", "r", "o/r", some 3, "t", 0,
        "completed", some "success", some 1⟩)] := by
  refine ⟨by decide, by decide⟩

/-- C6 (amended): when no run is observed in the remote run list after the
dispatch, createTestRun does not fail with any timeout error: it answers HTTP
201 and registers the run with workflowRunId absent. -/
theorem createTestRun_empty_runs_succeeds (reg : Registry) (body : CreateBody)
    (now : Nat) (env : CreateEnv) (fullName : String) (sha : Nat)
    (hv : (body.testScript.truthy && body.testScript.isStringVal) = true)
    (hrepo : env.createRepoRes = .ok fullName)
    (hcommit : env.commitRes = .ok sha)
    (htrig : env.triggerRes = .ok ())
    (hruns : env.runsRes = .ok []) :
    (createTestRun reg body now env).1.status = 201 ∧
    (alookup (createTestRun reg body now env).2.1
        ("test-run-" ++ toString now)).map (fun m => m.workflowRunId) = some none := by
  simp only [createTestRun, hv, Bool.not_true, Bool.false_eq_true, if_false,
    hrepo, hcommit, htrig, hruns]
  refine ⟨trivial, ?_⟩
  rw [alookup_aset_self]
  rfl

/-- Witness for C6's amended theorem at a concrete environment with an empty
run list. -/
theorem createTestRun_empty_runs_succeeds_witness :
    (createTestRun [] ⟨JsVal.jsStr "x", none, none⟩ 4
        ⟨.ok "a/b", .ok 9, .ok (), .ok []⟩).1.status = 201 ∧
    (alookup (createTestRun [] ⟨JsVal.jsStr "x", none, none⟩ 4
        ⟨.ok "a/b", .ok 9, .ok (), .ok []⟩).2.1
      ("test-run-" ++ toString 4)).map (fun m => m.workflowRunId) = some none :=
  createTestRun_empty_runs_succeeds [] ⟨JsVal.jsStr "x", none, none⟩ 4
    ⟨.ok "a/b", .ok 9, .ok (), .ok []⟩ "a/b" 9 (by decide) rfl rfl rfl rfl

/-- C6 counterexample: at a concrete execution in which the remote run list is
empty within the whole (fixed-delay) observation window, createTestRun
answers HTTP 201 with an absent workflowRunId instead of failing with a
correlation-timeout error. -/
theorem createTestRun_no_timeout_cex :
    (createTestRun [] ⟨JsVal.jsStr "print(1)", none, none⟩ 1000
        ⟨.ok "SarthakRay26/repoB", .ok 50, .ok (), .ok []⟩).1 =
      ⟨201, .created ⟨"test-run-1000", none, "SarthakRay26/repoB", "queued"⟩⟩ := by
  decide

/-- C10: with the remote run list empty right after dispatch, createTestRun
returns HTTP 201, registers a TestRun with workflowRunId undefined and status
queued, and a subsequent getStatus for that run queries the remote platform
with an undefined workflow-run identifier. -/
theorem createTestRun_uncorrelated_success :
    (createTestRun [] ⟨JsVal.jsStr "print(1)", none, none⟩ 1000
        ⟨.ok "SarthakRay26/selenium-test-1000", .ok 50, .ok (), .ok []⟩).1.status = 201 ∧
    (alookup (createTestRun [] ⟨JsVal.jsStr "print(1)", none, none⟩ 1000
        ⟨.ok "SarthakRay26/selenium-test-1000", .ok 50, .ok (), .ok []⟩).2.1
      "test-run-1000").map (fun m => (m.workflowRunId, m.status)) =
      some (none, "queued") ∧
    (getStatus (createTestRun [] ⟨JsVal.jsStr "print(1)", none, none⟩ 1000
        ⟨.ok "SarthakRay26/selenium-test-1000", .ok 50, .ok (), .ok []⟩).2.1
      "test-run-1000" ⟨.error "Failed to fetch workflow run: Not Found"⟩ 2000).2.2 =
      [.getRunById "SarthakRay26" "selenium-test-1000" none] := by
  refine ⟨by decide, by decide, by decide⟩

/-- C8 (amended): the generated runId is derived solely from the observed
Date.now() millisecond timestamp, so two distinct createTestRun invocations
observing the same millisecond produce the same runId, and the second
registration overwrites the first in the registry. -/
theorem runId_same_timestamp_collision (reg : Registry) (b1 b2 : CreateBody)
    (t : Nat) (env1 env2 : CreateEnv) (f1 f2 : String) (s1 s2 : Nat)
    (r1 r2 : List PlatformRun)
    (hv1 : (b1.testScript.truthy && b1.testScript.isStringVal) = true)
    (hv2 : (b2.testScript.truthy && b2.testScript.isStringVal) = true)
    (he1 : env1.createRepoRes = .ok f1) (hc1 : env1.commitRes = .ok s1)
    (ht1 : env1.triggerRes = .ok ()) (hr1 : env1.runsRes = .ok r1)
    (he2 : env2.createRepoRes = .ok f2) (hc2 : env2.commitRes = .ok s2)
    (ht2 : env2.triggerRes = .ok ()) (hr2 : env2.runsRes = .ok r2) :
    ∃ d1 d2, (createTestRun reg b1 t env1).1.body = .created d1 ∧
      (createTestRun (createTestRun reg b1 t env1).2.1 b2 t env2).1.body = .created d2 ∧
      d1.runId = d2.runId ∧
      (alookup (createTestRun (createTestRun reg b1 t env1).2.1 b2 t env2).2.1
          ("test-run-" ++ toString t)).map (fun m => m.testName) =
        some (b2.testName.getD "selenium-test") := by
  simp only [createTestRun, hv1, hv2, Bool.not_true, Bool.false_eq_true, if_false,
    he1, hc1, ht1, hr1, he2, hc2, ht2, hr2]
  refine ⟨_, _, rfl, rfl, rfl, ?_⟩
  rw [alookup_aset_self]
  rfl

/-- Witness for C8's amended theorem: two same-millisecond invocations with
different bodies both yield runId "test-run-5" and the second one's metadata
wins. -/
theorem runId_same_timestamp_collision_witness :
    ∃ d1 d2, (createTestRun [] ⟨JsVal.jsStr "a", some "A", none⟩ 5
        ⟨.ok "o/r1", .ok 1, .ok (), .ok []⟩).1.body = .created d1 ∧
      (createTestRun (createTestRun [] ⟨JsVal.jsStr "a", some "A", none⟩ 5
          ⟨.ok "o/r1", .ok 1, .ok (), .ok []⟩).2.1 ⟨JsVal.jsStr "b", some "B", none⟩ 5
        ⟨.ok "o/r2", .ok 2, .ok (), .ok []⟩).1.body = .created d2 ∧
      d1.runId = d2.runId ∧
      (alookup (createTestRun (createTestRun [] ⟨JsVal.jsStr "a", some "A", none⟩ 5
            ⟨.ok "o/r1", .ok 1, .ok (), .ok []⟩).2.1 ⟨JsVal.jsStr "b", some "B", none⟩ 5
          ⟨.ok "o/r2", .ok 2, .ok (), .ok []⟩).2.1
        ("test-run-" ++ toString 5)).map (fun m => m.testName) =
      some ((some "B").getD "selenium-test") :=
  runId_same_timestamp_collision [] ⟨JsVal.jsStr "a", some "A", none⟩
    ⟨JsVal.jsStr "b", some "B", none⟩ 5
    ⟨.ok "o/r1", .ok 1, .ok (), .ok []⟩ ⟨.ok "o/r2", .ok 2, .ok (), .ok []⟩
    "o/r1" "o/r2" 1 2 [] [] (by decide) (by decide) rfl rfl rfl rfl rfl rfl rfl rfl

/-- C8 counterexample: two distinct createTestRun invocations (different
request bodies) that observe the same Date.now() value 5 both produce runId
"test-run-5"; the registry afterwards holds a single entry, the second
invocation's metadata. -/
theorem runId_collision_cex :
    (⟨JsVal.jsStr "a", some "A", none⟩ : CreateBody) ≠
      ⟨JsVal.jsStr "b", some "B", none⟩ ∧
    (createTestRun [] ⟨JsVal.jsStr "a", some "A", none⟩ 5
        ⟨.ok "o/r1", .ok 1, .ok (), .ok []⟩).1.body =
      .created ⟨"test-run-5", none, "o/r1", "queued"⟩ ∧
    (createTestRun (createTestRun [] ⟨JsVal.jsStr "a", some "A", none⟩ 5
          ⟨.ok "o/r1", .ok 1, .ok (), .ok []⟩).2.1 ⟨JsVal.jsStr "b", some "B", none⟩ 5
        ⟨.ok "o/r2", .ok 2, .ok (), .ok []⟩).1.body =
      .created ⟨"test-run-5", none, "o/r2", "queued"⟩ ∧
    (alookup (createTestRun (createTestRun [] ⟨JsVal.jsStr "a", some "A", none⟩ 5
          ⟨.ok "o/r1", .ok 1, .ok (), .ok []⟩).2.1 ⟨JsVal.jsStr "b", some "B", none⟩ 5
        ⟨.ok "o/r2", .ok 2, .ok (), .ok []⟩).2.1 "test-run-5").map
      (fun m => m.testName) = some "B" := by
  refine ⟨by decide, by decide, by decide, by decide⟩

/-! ## Lemmas about the commit pipeline -/

theorem createBlobs_cons (st : RemoteRepo) (f : FileEntry) (fs : List FileEntry) :
    createBlobs st (f :: fs) =
      ((createBlobs (addBlob st f.content) fs).1,
        (⟨f.path, "100644", "blob", st.nextSha⟩ : TreeEntry) ::
          (createBlobs (addBlob st f.content) fs).2) := rfl

theorem createBlobs_fields (st : RemoteRepo) (fs : List FileEntry) :
    (createBlobs st fs).1.refs = st.refs ∧
    (createBlobs st fs).1.trees = st.trees ∧
    (createBlobs st fs).1.commits = st.commits ∧
    (createBlobs st fs).1.nextSha = st.nextSha + fs.length := by
  induction fs generalizing st with
  | nil => simp [createBlobs]
  | cons f fs ih =>
    obtain ⟨h1, h2, h3, h4⟩ := ih (addBlob st f.content)
    rw [createBlobs_cons]
    refine ⟨h1, h2, h3, ?_⟩
    rw [h4]
    simp [addBlob]
    omega

theorem createBlobs_blobs (st : RemoteRepo) (fs : List FileEntry) :
    ∃ l, (createBlobs st fs).1.blobs = st.blobs ++ l := by
  induction fs generalizing st with
  | nil => exact ⟨[], by simp [createBlobs]⟩
  | cons f fs ih =>
    obtain ⟨l, hl⟩ := ih (addBlob st f.content)
    refine ⟨(st.nextSha, f.content) :: l, ?_⟩
    rw [createBlobs_cons]
    simp only at hl ⊢
    rw [hl]
    simp [addBlob]

theorem createBlobs_paths (fs : List FileEntry) :
    ∀ st : RemoteRepo,
      ((createBlobs st fs).2).map (fun e => e.path) = fs.map (fun f => f.path) := by
  induction fs with
  | nil => intro st; rfl
  | cons g gs ih =>
    intro st
    rw [createBlobs_cons]
    simp [ih]

theorem createBlobs_spec (fs : List FileEntry) :
    ∀ st : RemoteRepo, (∀ p ∈ st.blobs, p.1 < st.nextSha) →
    ∀ f ∈ fs, ∃ e, e ∈ (createBlobs st fs).2 ∧
      e.path = f.path ∧ e.mode = "100644" ∧ e.type = "blob" ∧
      alookup (createBlobs st fs).1.blobs e.sha = some f.content := by
  induction fs with
  | nil => intro st hwf f hf; simp at hf
  | cons g gs ih =>
    intro st hwf f hf
    rcases List.mem_cons.mp hf with rfl | hfgs
    · refine ⟨⟨f.path, "100644", "blob", st.nextSha⟩, ?_, rfl, rfl, rfl, ?_⟩
      · rw [createBlobs_cons]; exact List.mem_cons_self _ _
      · rw [createBlobs_cons]
        show alookup (createBlobs (addBlob st f.content) gs).1.blobs st.nextSha =
          some f.content
        obtain ⟨l, hl⟩ := createBlobs_blobs (addBlob st f.content) gs
        rw [hl]
        simp only [addBlob, List.append_assoc]
        rw [alookup_append_right st.blobs _ st.nextSha (alookup_eq_none _ _ ?_)]
        · rw [List.cons_append, alookup_cons, if_pos (by simp)]
        · intro p hp
          exact beq_false_of_ne (Nat.ne_of_lt (hwf p hp))
    · have hwf1 : ∀ p ∈ (addBlob st g.content).blobs, p.1 < (addBlob st g.content).nextSha := by
        intro p hp
        simp only [addBlob, List.mem_append, List.mem_singleton] at hp
        rcases hp with hp | hp
        · exact Nat.lt_succ_of_lt (hwf p hp)
        · subst hp; exact Nat.lt_succ_self _
      obtain ⟨e, he, h1, h2, h3, h4⟩ := ih (addBlob st g.content) hwf1 f hfgs
      refine ⟨e, ?_, h1, h2, h3, ?_⟩
      · rw [createBlobs_cons]; exact List.mem_cons_of_mem _ he
      · rw [createBlobs_cons]; exact h4

theorem mem_overlayEntry_self (base : List TreeEntry) (e : TreeEntry) :
    e ∈ overlayEntry base e := by
  unfold overlayEntry
  cases h : base.any (fun x => x.path == e.path)
  · simp
  · obtain ⟨x, hx, hxe⟩ := List.any_eq_true.mp h
    simp only [if_true]
    refine List.mem_map.mpr ⟨x, hx, ?_⟩
    rw [if_pos hxe]

theorem mem_overlayEntry_of_ne (base : List TreeEntry) (n e : TreeEntry)
    (he : e ∈ base) (hne : n.path ≠ e.path) :
    e ∈ overlayEntry base n := by
  unfold overlayEntry
  cases h : base.any (fun x => x.path == n.path)
  · simp [he]
  · simp only [if_true]
    refine List.mem_map.mpr ⟨e, he, ?_⟩
    rw [if_neg (by
      simp only [beq_iff_eq]
      exact fun h => hne (Eq.symm h))]

theorem mem_overlay_of_not_mentioned (news : List TreeEntry) :
    ∀ (base : List TreeEntry) (e : TreeEntry), e ∈ base →
      (∀ n ∈ news, n.path ≠ e.path) → e ∈ overlay base news := by
  induction news with
  | nil => intro base e he _; exact he
  | cons n ns ih =>
    intro base e he hn
    show e ∈ overlay (overlayEntry base n) ns
    exact ih (overlayEntry base n) e
      (mem_overlayEntry_of_ne base n e he (hn n (by simp)))
      (fun m hm => hn m (by simp [hm]))

theorem mem_overlay_of_mem_news (news : List TreeEntry) :
    ∀ (base : List TreeEntry) (e : TreeEntry), e ∈ news →
      (news.map (fun n => n.path)).Nodup → e ∈ overlay base news := by
  induction news with
  | nil => intro base e he _; simp at he
  | cons n ns ih =>
    intro base e he hnd
    rcases List.mem_cons.mp he with rfl | hens
    · show e ∈ overlay (overlayEntry base e) ns
      refine mem_overlay_of_not_mentioned ns (overlayEntry base e) e
        (mem_overlayEntry_self base e) ?_
      intro m hm hcontra
      have he2 : e.path ∈ List.map (fun n => n.path) ns := by
        rw [← hcontra]
        exact List.mem_map_of_mem (fun n => n.path) hm
      exact (List.nodup_cons.mp hnd).1 he2
    · show e ∈ overlay (overlayEntry base n) ns
      exact ih (overlayEntry base n) e hens (List.nodup_cons.mp hnd).2

theorem isAncestorOrEq_le (st : RemoteRepo)
    (hpd : ∀ p ∈ st.commits, ∀ q ∈ p.2.parents, q < p.1) :
    ∀ (fuel a target : Nat), isAncestorOrEq st fuel a target = true → a ≤ target := by
  intro fuel
  induction fuel with
  | zero => intro a target h; simp [isAncestorOrEq] at h
  | succ fuel ih =>
    intro a target h
    unfold isAncestorOrEq at h
    rw [Bool.or_eq_true] at h
    rcases h with heq | hm
    · exact Nat.le_of_eq (eq_of_beq heq)
    · cases ho : alookup st.commits target with
      | none => rw [ho] at hm; simp at hm
      | some c =>
        rw [ho] at hm
        obtain ⟨p, hp, hpa⟩ := List.any_eq_true.mp hm
        have hlt : p < target := hpd (target, c) (alookup_mem ho) p hp
        exact Nat.le_trans (ih a p hpa) (Nat.le_of_lt hlt)

theorem isAncestorOrEq_parent (st : RemoteRepo) (fuel a target : Nat) (c : CommitObj)
    (hc : alookup st.commits target = some c) (hp : a ∈ c.parents) :
    isAncestorOrEq st (fuel + 2) a target = true := by
  unfold isAncestorOrEq
  rw [hc, Bool.or_eq_true]
  right
  refine List.any_eq_true.mpr ⟨a, hp, ?_⟩
  unfold isAncestorOrEq
  rw [Bool.or_eq_true]
  left
  exact beq_self_eq_true a

theorem updateRef_fast_forward (st : RemoteRepo) (branch : String) (cur newSha : Nat)
    (c : CommitObj) (hfuel : 1 ≤ st.nextSha)
    (href2 : alookup st.refs branch = some cur)
    (hc : alookup st.commits newSha = some c) (hp : cur ∈ c.parents) :
    updateRef st branch newSha false =
      .ok { st with refs := aset st.refs branch newSha } := by
  have hFF := isAncestorOrEq_parent st (st.nextSha - 1) cur newSha c hc hp
  rw [show st.nextSha - 1 + 2 = st.nextSha + 1 from by omega] at hFF
  simp only [updateRef, href2, Bool.false_or, hFF, if_true]

theorem updateRef_conflict (st : RemoteRepo) (branch : String) (cur newSha : Nat)
    (hpd : ∀ p ∈ st.commits, ∀ q ∈ p.2.parents, q < p.1)
    (href2 : alookup st.refs branch = some cur)
    (hgt : newSha < cur) :
    updateRef st branch newSha false = .error "Update is not a fast forward" := by
  have hFF : isAncestorOrEq st (st.nextSha + 1) cur newSha = false := by
    cases hb : isAncestorOrEq st (st.nextSha + 1) cur newSha
    · rfl
    · exact absurd (isAncestorOrEq_le st hpd _ _ _ hb) (by omega)
  simp only [updateRef, href2, Bool.false_or, hFF, Bool.false_eq_true, if_false]

theorem commitStep6_ok (st4 st5 : RemoteRepo) (branch : String) (commitSha : Nat)
    (h : updateRef st4 branch commitSha false = .ok st5) :
    commitStep6 st4 branch commitSha = (.ok commitSha, st5) := by
  unfold commitStep6
  rw [h]

theorem commitStep6_err (st4 : RemoteRepo) (branch : String) (commitSha : Nat) (e : String)
    (h : updateRef st4 branch commitSha false = .error e) :
    commitStep6 st4 branch commitSha = (.error (wrapCommitErr e), st4) := by
  unfold commitStep6
  rw [h]

theorem pushNewCommit_spec (wmsg branch : String) (st : RemoteRepo) (h : Nat)
    (hr : alookup st.refs branch = some h) :
    ∃ t, pushNewCommit wmsg branch st =
      { st with commits := st.commits ++ [(st.nextSha, ⟨wmsg, t, [h]⟩)],
                refs := aset st.refs branch st.nextSha,
                nextSha := st.nextSha + 1 } := by
  refine ⟨((alookup st.commits h).map (fun c => c.tree)).getD 0, ?_⟩
  unfold pushNewCommit
  rw [hr]

theorem commitFiles_success_path (st0 : RemoteRepo) (interfere : RemoteRepo → RemoteRepo)
    (files : List FileEntry) (message branch : String) (hSha : Nat) (c0 : CommitObj)
    (baseEntries : List TreeEntry)
    (href : alookup st0.refs branch = some hSha)
    (hcom : alookup st0.commits hSha = some c0)
    (htree : alookup st0.trees c0.tree = some baseEntries) :
    commitFiles st0 interfere files message branch =
      commitSteps45 (createBlobs st0 files).1 interfere (createBlobs st0 files).2
        message branch hSha baseEntries := by
  have htrees1 := (createBlobs_fields st0 files).2.1
  simp only [commitFiles, href, hcom, htrees1, htree]

theorem commitSteps45_id (st1 : RemoteRepo) (blobEntries : List TreeEntry)
    (message branch : String) (latestCommitSha : Nat) (baseEntries : List TreeEntry)
    (href1 : alookup st1.refs branch = some latestCommitSha)
    (hkeys : ∀ p ∈ st1.commits, p.1 < st1.nextSha) :
    commitSteps45 st1 id blobEntries message branch latestCommitSha baseEntries =
      (.ok (st1.nextSha + 1),
        { refs := aset st1.refs branch (st1.nextSha + 1),
          commits := st1.commits ++
            [(st1.nextSha + 1, ⟨message, st1.nextSha, [latestCommitSha]⟩)],
          trees := st1.trees ++ [(st1.nextSha, overlay baseEntries blobEntries)],
          blobs := st1.blobs,
          nextSha := st1.nextSha + 2 }) := by
  have hcs : commitSteps45 st1 id blobEntries message branch latestCommitSha baseEntries =
      commitStep6
        { refs := st1.refs,
          commits := st1.commits ++
            [(st1.nextSha + 1, ⟨message, st1.nextSha, [latestCommitSha]⟩)],
          trees := st1.trees ++ [(st1.nextSha, overlay baseEntries blobEntries)],
          blobs := st1.blobs,
          nextSha := st1.nextSha + 2 }
        branch (st1.nextSha + 1) := rfl
  rw [hcs]
  have hup := updateRef_fast_forward
    { refs := st1.refs,
      commits := st1.commits ++
        [(st1.nextSha + 1, ⟨message, st1.nextSha, [latestCommitSha]⟩)],
      trees := st1.trees ++ [(st1.nextSha, overlay baseEntries blobEntries)],
      blobs := st1.blobs,
      nextSha := st1.nextSha + 2 }
    branch latestCommitSha (st1.nextSha + 1)
    ⟨message, st1.nextSha, [latestCommitSha]⟩
    (Nat.le_add_left 1 (st1.nextSha + 1))
    href1
    (alookup_append_pair st1.commits (st1.nextSha + 1) _
      (fun p hp => Nat.ne_of_lt (Nat.lt_succ_of_lt (hkeys p hp))))
    (List.mem_singleton.mpr rfl)
  rw [commitStep6_ok _ _ _ _ hup]

theorem commitSteps45_push_conflict (st1 : RemoteRepo) (blobEntries : List TreeEntry)
    (message wmsg branch : String) (latestCommitSha : Nat) (baseEntries : List TreeEntry)
    (href1 : alookup st1.refs branch = some latestCommitSha)
    (hpd : ∀ p ∈ st1.commits, ∀ q ∈ p.2.parents, q < p.1)
    (hhead : latestCommitSha < st1.nextSha) :
    (commitSteps45 st1 (pushNewCommit wmsg branch) blobEntries message branch
        latestCommitSha baseEntries).1 =
      .error "Failed to commit files: Update is not a fast forward" ∧
    alookup (commitSteps45 st1 (pushNewCommit wmsg branch) blobEntries message branch
        latestCommitSha baseEntries).2.refs branch = some (st1.nextSha + 2) := by
  obtain ⟨t, hpush⟩ := pushNewCommit_spec wmsg branch
    { refs := st1.refs,
      commits := st1.commits ++
        [(st1.nextSha + 1, ⟨message, st1.nextSha, [latestCommitSha]⟩)],
      trees := st1.trees ++ [(st1.nextSha, overlay baseEntries blobEntries)],
      blobs := st1.blobs,
      nextSha := st1.nextSha + 2 }
    latestCommitSha href1
  have hcs : commitSteps45 st1 (pushNewCommit wmsg branch) blobEntries message branch
      latestCommitSha baseEntries =
      commitStep6 (pushNewCommit wmsg branch
        { refs := st1.refs,
          commits := st1.commits ++
            [(st1.nextSha + 1, ⟨message, st1.nextSha, [latestCommitSha]⟩)],
          trees := st1.trees ++ [(st1.nextSha, overlay baseEntries blobEntries)],
          blobs := st1.blobs,
          nextSha := st1.nextSha + 2 })
        branch (st1.nextSha + 1) := rfl
  have hpd4 : ∀ p ∈ (st1.commits ++
      [(st1.nextSha + 1, (⟨message, st1.nextSha, [latestCommitSha]⟩ : CommitObj))] ++
      [(st1.nextSha + 2, (⟨wmsg, t, [latestCommitSha]⟩ : CommitObj))]),
      ∀ q ∈ p.2.parents, q < p.1 := by
    intro p hp q hq
    rcases List.mem_append.mp hp with hp1 | hp1
    · rcases List.mem_append.mp hp1 with hp2 | hp2
      · exact hpd p hp2 q hq
      · rw [List.mem_singleton] at hp2
        subst hp2
        rw [List.mem_singleton.mp hq]
        omega
    · rw [List.mem_singleton] at hp1
      subst hp1
      rw [List.mem_singleton.mp hq]
      omega
  have herr := updateRef_conflict
    { refs := aset st1.refs branch (st1.nextSha + 2),
      commits := st1.commits ++
        [(st1.nextSha + 1, ⟨message, st1.nextSha, [latestCommitSha]⟩)] ++
        [(st1.nextSha + 2, ⟨wmsg, t, [latestCommitSha]⟩)],
      trees := st1.trees ++ [(st1.nextSha, overlay baseEntries blobEntries)],
      blobs := st1.blobs,
      nextSha := st1.nextSha + 3 }
    branch (st1.nextSha + 2) (st1.nextSha + 1) hpd4
    (alookup_aset_self st1.refs branch (st1.nextSha + 2)) (by omega)
  rw [hcs, hpush]
  rw [commitStep6_err _ _ _ _ herr]
  refine ⟨rfl, ?_⟩
  exact alookup_aset_self st1.refs branch (st1.nextSha + 2)

/-- C4: for every non-empty list of file entries with distinct paths,
commitFiles produces exactly one new commit containing all submitted files:
each file becomes a blob entry with mode 100644 and type blob, all entries
are overlaid on the base tree in a single new tree (paths not listed are
inherited, not deleted), and the single new commit carries that tree and
exactly one parent — the head sha resolved in step 1. -/
theorem commitFiles_single_commit (st0 : RemoteRepo) (files : List FileEntry)
    (message branch : String) (hSha : Nat) (c0 : CommitObj)
    (baseEntries : List TreeEntry)
    (hwf : wfRepo st0)
    (href : alookup st0.refs branch = some hSha)
    (hcom : alookup st0.commits hSha = some c0)
    (htree : alookup st0.trees c0.tree = some baseEntries)
    (hne : files ≠ [])
    (hnd : (files.map (fun f => f.path)).Nodup) :
    ∃ stF newEntries,
      commitFiles st0 id files message branch =
        (.ok (st0.nextSha + files.length + 1), stF) ∧
      stF.commits = st0.commits ++
        [(st0.nextSha + files.length + 1,
          ⟨message, st0.nextSha + files.length, [hSha]⟩)] ∧
      alookup stF.trees (st0.nextSha + files.length) = some newEntries ∧
      (∀ f ∈ files, ∃ e, e ∈ newEntries ∧ e.path = f.path ∧ e.mode = "100644" ∧
        e.type = "blob" ∧ alookup stF.blobs e.sha = some f.content) ∧
      (∀ e ∈ baseEntries, (∀ f ∈ files, f.path ≠ e.path) → e ∈ newEntries) ∧
      alookup stF.refs branch = some (st0.nextSha + files.length + 1) := by
  obtain ⟨hwfRefs, hwfBlobs, hwfTrees, hwfCommits⟩ := hwf
  obtain ⟨hrefs1, htrees1, hcommits1, hnext1⟩ := createBlobs_fields st0 files
  have href1 : alookup (createBlobs st0 files).1.refs branch = some hSha := by
    rw [hrefs1]; exact href
  have hkeys : ∀ p ∈ (createBlobs st0 files).1.commits,
      p.1 < (createBlobs st0 files).1.nextSha := by
    rw [hcommits1, hnext1]
    intro p hp
    exact Nat.lt_of_lt_of_le (hwfCommits p hp).1 (Nat.le_add_right _ _)
  have hmain := (commitFiles_success_path st0 id files message branch hSha c0
    baseEntries href hcom htree).trans
    (commitSteps45_id (createBlobs st0 files).1 (createBlobs st0 files).2 message
      branch hSha baseEntries href1 hkeys)
  rw [hrefs1, htrees1, hcommits1, hnext1] at hmain
  refine ⟨_, overlay baseEntries (createBlobs st0 files).2, hmain, rfl, ?_, ?_, ?_, ?_⟩
  · exact alookup_append_pair st0.trees (st0.nextSha + files.length) _
      (fun p hp => Nat.ne_of_lt
        (Nat.lt_of_lt_of_le (hwfTrees p hp) (Nat.le_add_right _ _)))
  · intro f hf
    obtain ⟨e, he, h1, h2, h3, h4⟩ := createBlobs_spec files st0 hwfBlobs f hf
    refine ⟨e, ?_, h1, h2, h3, h4⟩
    refine mem_overlay_of_mem_news (createBlobs st0 files).2 baseEntries e he ?_
    rw [createBlobs_paths files st0]
    exact hnd
  · intro e he hno
    refine mem_overlay_of_not_mentioned (createBlobs st0 files).2 baseEntries e he ?_
    intro n hn
    have hnp : n.path ∈ List.map (fun f => f.path) files := by
      rw [← createBlobs_paths files st0]
      exact List.mem_map_of_mem (fun x => x.path) hn
    obtain ⟨f, hf, hfp⟩ := List.mem_map.mp hnp
    intro hcontra
    exact hno f hf (by rw [← hcontra]; exact hfp)
  · exact alookup_aset_self st0.refs branch (st0.nextSha + files.length + 1)

/-- Witness for C4: a concrete repository with one root commit, committing the
two files of a test run; the single new commit 5 carries tree 4 and sole
parent 1, and the branch advances to it. -/
theorem commitFiles_single_commit_witness :
    ∃ stF newEntries,
      commitFiles ⟨[("main", 1)], [(1, ⟨"init", 0, []⟩)], [(0, [])], [], 2⟩ id
          [⟨"test_script.py", "print(1)"⟩,
           ⟨".github/workflows/selenium-test.yml", "name: CI"⟩]
          "Add tests" "main" =
        (.ok 5, stF) ∧
      stF.commits = [(1, ⟨"init", 0, []⟩)] ++ [(5, ⟨"Add tests", 4, [1]⟩)] ∧
      alookup stF.trees 4 = some newEntries ∧
      (∀ f ∈ ([⟨"test_script.py", "print(1)"⟩,
          ⟨".github/workflows/selenium-test.yml", "name: CI"⟩] : List FileEntry),
        ∃ e, e ∈ newEntries ∧ e.path = f.path ∧ e.mode = "100644" ∧
          e.type = "blob" ∧ alookup stF.blobs e.sha = some f.content) ∧
      (∀ e ∈ ([] : List TreeEntry),
        (∀ f ∈ ([⟨"test_script.py", "print(1)"⟩,
          ⟨".github/workflows/selenium-test.yml", "name: CI"⟩] : List FileEntry),
          f.path ≠ e.path) → e ∈ newEntries) ∧
      alookup stF.refs "main" = some 5 :=
  commitFiles_single_commit ⟨[("main", 1)], [(1, ⟨"init", 0, []⟩)], [(0, [])], [], 2⟩
    [⟨"test_script.py", "print(1)"⟩, ⟨".github/workflows/selenium-test.yml", "name: CI"⟩]
    "Add tests" "main" 1 ⟨"init", 0, []⟩ []
    (by decide) (by decide) (by decide) (by decide) (by decide) (by decide)

/-- C3: the branch reference is advanced only by a non-forced fast-forward
update: when a concurrent writer has advanced the branch between the head
resolution of step 1 and the ref update of step 6, the update is rejected —
the thrown error is the wrapped non-fast-forward rejection — and the branch
is left at the concurrent writer's commit, never overwritten with this
call's commit. -/
theorem commitFiles_concurrent_push_conflict (st0 : RemoteRepo) (files : List FileEntry)
    (message wmsg branch : String) (hSha : Nat) (c0 : CommitObj)
    (baseEntries : List TreeEntry)
    (hwf : wfRepo st0)
    (href : alookup st0.refs branch = some hSha)
    (hcom : alookup st0.commits hSha = some c0)
    (htree : alookup st0.trees c0.tree = some baseEntries) :
    (commitFiles st0 (pushNewCommit wmsg branch) files message branch).1 =
      .error "Failed to commit files: Update is not a fast forward" ∧
    alookup (commitFiles st0 (pushNewCommit wmsg branch) files message branch).2.refs
      branch = some (st0.nextSha + files.length + 2) ∧
    st0.nextSha + files.length + 2 ≠ st0.nextSha + files.length + 1 := by
  obtain ⟨hwfRefs, hwfBlobs, hwfTrees, hwfCommits⟩ := hwf
  obtain ⟨hrefs1, htrees1, hcommits1, hnext1⟩ := createBlobs_fields st0 files
  have href1 : alookup (createBlobs st0 files).1.refs branch = some hSha := by
    rw [hrefs1]; exact href
  have hpd1 : ∀ p ∈ (createBlobs st0 files).1.commits, ∀ q ∈ p.2.parents, q < p.1 := by
    rw [hcommits1]
    intro p hp
    exact (hwfCommits p hp).2
  have hhead1 : hSha < (createBlobs st0 files).1.nextSha := by
    rw [hnext1]
    exact Nat.lt_of_lt_of_le (hwfRefs (branch, hSha) (alookup_mem href))
      (Nat.le_add_right _ _)
  have hmain := commitFiles_success_path st0 (pushNewCommit wmsg branch) files message
    branch hSha c0 baseEntries href hcom htree
  obtain ⟨h1, h2⟩ := commitSteps45_push_conflict (createBlobs st0 files).1
    (createBlobs st0 files).2 message wmsg branch hSha baseEntries href1 hpd1 hhead1
  rw [hnext1] at h2
  refine ⟨?_, ?_, by omega⟩
  · rw [hmain]; exact h1
  · rw [hmain]; exact h2

/-- Witness for C3: at the same concrete repository, a writer pushing commit 5
while commit 4 was being built makes the ref update fail, and the branch ends
at the writer's commit 5, not at this call's commit 4. -/
theorem commitFiles_concurrent_push_conflict_witness :
    (commitFiles ⟨[("main", 1)], [(1, ⟨"init", 0, []⟩)], [(0, [])], [], 2⟩
        (pushNewCommit "other write" "main") [⟨"test_script.py", "print(1)"⟩]
        "Add tests" "main").1 =
      .error "Failed to commit files: Update is not a fast forward" ∧
    alookup (commitFiles ⟨[("main", 1)], [(1, ⟨"init", 0, []⟩)], [(0, [])], [], 2⟩
        (pushNewCommit "other write" "main") [⟨"test_script.py", "print(1)"⟩]
        "Add tests" "main").2.refs "main" = some 5 ∧
    (5 : Nat) ≠ 4 :=
  commitFiles_concurrent_push_conflict
    ⟨[("main", 1)], [(1, ⟨"init", 0, []⟩)], [(0, [])], [], 2⟩
    [⟨"test_script.py", "print(1)"⟩] "Add tests" "other write" "main" 1
    ⟨"init", 0, []⟩ [] (by decide) (by decide) (by decide) (by decide)

end QA
